import Mathlib

/-!
# BarcodeScanner: result-processing pipeline

A shallow embedding of `src/script.js` (class `BarcodeScanner`): the settings
model, `validateScanContent`, `handleScanResult`, `deleteResult`,
`getFilteredResults`, `startScanning` and `stopScanning`, with theorems about the
duplicate rules, the rate limit, the counters, the feedback call, the record store
and the scanning flag.

Conventions of the embedding.

* A JavaScript string is the list of its UTF-16 code units, so `length`,
  `startsWith`, `includes` and `===` are the list operations.
* Times (`Date.now()`) and the numeric settings are integers; counters are
  natural numbers.
* Services of the host that are not part of the repository (the `RegExp`
  engine, `String.prototype.toLowerCase`, the audio and vibration devices) are
  fields of a `Runtime` value passed to the functions that use them.
* DOM and storage calls are recorded as a list of `Effect`s, in call order.
-/

namespace BarcodeScanner

/-! ## Strings -/

/-- A JavaScript string: its sequence of UTF-16 code units. -/
abbrev JsString := List Nat

/-- UTF-16 encoding of one Unicode scalar value. -/
def utf16 (c : Char) : List Nat :=
  if c.toNat < 0x10000 then [c.toNat]
  else [0xD800 + (c.toNat - 0x10000) / 0x400, 0xDC00 + (c.toNat - 0x10000) % 0x400]

/-- The JavaScript string written by a literal. -/
def js (s : String) : JsString :=
  s.toList.flatMap utf16

/-- Truthiness of a string value: only the empty string is falsy. -/
def truthy (s : JsString) : Bool :=
  !s.isEmpty

/-- `s.startsWith(p)`. -/
def startsWith (s p : JsString) : Bool :=
  p.isPrefixOf s

/-- `s.includes(t)`: `t` occurs in `s` as a contiguous run of code units. -/
def includes : JsString → JsString → Bool
  | [], t => t.isEmpty
  | c :: s, t => t.isPrefixOf (c :: s) || includes s t

/-- Code units removed by `String.prototype.trim`: the ECMAScript `WhiteSpace`
and `LineTerminator` productions. -/
def isTrimmed (c : Nat) : Bool :=
  c = 0x09 || c = 0x0A || c = 0x0B || c = 0x0C || c = 0x0D || c = 0x20 || c = 0xA0
    || c = 0x1680 || (0x2000 ≤ c && c ≤ 0x200A) || c = 0x2028 || c = 0x2029
    || c = 0x202F || c = 0x205F || c = 0x3000 || c = 0xFEFF

/-- `s.trim()`: white space dropped at both ends. -/
def trim (s : JsString) : JsString :=
  ((s.dropWhile isTrimmed).reverse.dropWhile isTrimmed).reverse

/-! ## Host services -/

/-- The services of the JavaScript host used by the scanner. -/
structure Runtime where
  /-- `new RegExp(pattern)`: `none` when the constructor throws a `SyntaxError`,
  otherwise the `test` method of the compiled expression. -/
  regExp : JsString → Option (JsString → Bool)
  /-- `String.prototype.toLowerCase`. -/
  toLowerCase : JsString → JsString
  /-- Whether creating and driving an `AudioContext` succeeds. -/
  audioContext : Bool
  /-- Whether `navigator.vibrate` exists. -/
  vibrate : Bool

/-! ## Data model -/

/-- The value of `settings.duplicateRule`. `other` stands for any string that
matches no `case` of the `switch` in `handleScanResult`. -/
inductive DuplicateRule where
  | ignore
  | allow
  | count
  | other
  deriving DecidableEq, Repr

/-- The settings object (`getDefaultSettings` lists its fields). -/
structure Settings where
  allowedFormats : List JsString
  duplicateRule : DuplicateRule
  scanInterval : Int
  enableRegex : Bool
  regexPattern : JsString
  enableLength : Bool
  minLength : Int
  maxLength : Int
  enablePrefix : Bool
  prefixFilter : JsString
  enableSound : Bool
  enableVibration : Bool
  autoExport : Bool
  autoExportCount : Int
  deriving DecidableEq, Repr

/-- One element of `scanResults` (the object `scanData` of `handleScanResult`). -/
structure ScanData where
  id : Rat
  text : JsString
  format : JsString
  timestamp : JsString
  date : JsString
  count : Nat
  deriving DecidableEq, Repr

/-- The decode event handed over by the recognition library. -/
structure ScanResult where
  text : JsString
  format : JsString
  deriving DecidableEq, Repr

/-- What one call of `handleScanResult` reads from the clock and the random
number generator. -/
structure Clock where
  /-- `Date.now()` at the top of the call. -/
  now : Int
  /-- `Date.now() + Math.random()`, the id of the new record. -/
  id : Rat
  /-- `new Date().toISOString()`. -/
  timestamp : JsString
  /-- `new Date().toLocaleString('zh-CN')`. -/
  date : JsString
  deriving DecidableEq, Repr

/-- The text handed to `showScanFeedback`. -/
inductive Message where
  /-- '不支持的格式' -/
  | unsupportedFormat
  /-- '内容不符合正则表达式规则' -/
  | regexMismatch
  /-- '正则表达式配置错误' -/
  | regexConfigError
  /-- '内容长度不能少于${minLength}个字符' -/
  | tooShort (minLength : Int)
  /-- '内容长度不能超过${maxLength}个字符' -/
  | tooLong (maxLength : Int)
  /-- '内容必须以"${prefixFilter}"开头' -/
  | missingPrefix (prefixFilter : JsString)
  /-- '扫码成功!' -/
  | scanOk
  /-- '重复扫码已忽略' -/
  | duplicateIgnored
  /-- '重复扫码 (计数: ${count})' -/
  | duplicateCounted (count : Nat)
  /-- '已自动导出${autoExportCount}条记录' -/
  | autoExported (autoExportCount : Int)
  deriving DecidableEq, Repr

/-- Calls that leave the scanner object: DOM, storage, download and devices. -/
inductive Effect where
  | showScanFeedback (success : Bool) (message : Message)
  | saveResults
  | renderResults
  | updateDisplay
  /-- The call `this.playFeedback()`. -/
  | playFeedback
  /-- The oscillator beep started inside `playFeedback`. -/
  | sound
  /-- `navigator.vibrate(ms)`. -/
  | vibration (ms : Nat)
  | exportJson
  deriving DecidableEq, Repr

/-- The fields of the `BarcodeScanner` object that the pipeline reads or writes. -/
structure Scanner where
  isScanning : Bool
  scanResults : List ScanData
  scanCount : Nat
  successCount : Nat
  lastScanTime : Int
  settings : Settings
  startBtnDisabled : Bool
  stopBtnDisabled : Bool
  deriving DecidableEq, Repr

/-- `getDefaultSettings()`. -/
def getDefaultSettings : Settings where
  allowedFormats := [js "QR_CODE", js "CODE_128", js "CODE_39", js "EAN_13", js "EAN_8",
    js "UPC_A", js "DATA_MATRIX", js "PDF_417"]
  duplicateRule := .ignore
  scanInterval := 1000
  enableRegex := false
  regexPattern := []
  enableLength := false
  minLength := 0
  maxLength := 100
  enablePrefix := false
  prefixFilter := []
  enableSound := true
  enableVibration := true
  autoExport := false
  autoExportCount := 100

/-! ## Content validation -/

/-- The object returned by `validateScanContent`: `{ valid: true }` or
`{ valid: false, message }`. -/
inductive ValidationResult where
  | valid
  | invalid (message : Message)
  deriving DecidableEq, Repr

/-- The field `valid` of a validation result. -/
def ValidationResult.isValid : ValidationResult → Bool
  | .valid => true
  | .invalid _ => false

/-- `validateScanContent(text)`. The `try` block holds the only call that can
throw, `new RegExp`, and its `catch` returns the configuration-error result. -/
def validateScanContent (rt : Runtime) (st : Settings) (text : JsString) : ValidationResult :=
  let afterPrefix : ValidationResult :=
    if st.enablePrefix && truthy st.prefixFilter then
      if !startsWith text st.prefixFilter then .invalid (.missingPrefix st.prefixFilter)
      else .valid
    else .valid
  let afterLength : ValidationResult :=
    if st.enableLength then
      if (text.length : Int) < st.minLength then .invalid (.tooShort st.minLength)
      else if (text.length : Int) > st.maxLength then .invalid (.tooLong st.maxLength)
      else afterPrefix
    else afterPrefix
  if st.enableRegex && truthy st.regexPattern then
    match rt.regExp st.regexPattern with
    | none => .invalid .regexConfigError
    | some test => if !test text then .invalid .regexMismatch else afterLength
  else afterLength

/-! ## The scan pipeline -/

/-- `playFeedback()`: the beep when sound is enabled and the audio context works,
the vibration when enabled and supported. -/
def playFeedback (rt : Runtime) (st : Settings) : List Effect :=
  (if st.enableSound && rt.audioContext then [Effect.sound] else [])
    ++ (if st.enableVibration && rt.vibrate then [Effect.vibration 100] else [])

/-- `checkAutoExport()`. -/
def checkAutoExport (st : Settings) (scanResults : List ScanData) : List Effect :=
  if st.autoExport && decide ((scanResults.length : Int) ≥ st.autoExportCount) then
    [.exportJson, .showScanFeedback true (.autoExported st.autoExportCount)]
  else []

/-- `Array.prototype.findIndex`, with `none` for the result `-1`. -/
def findIndex {α : Type} (p : α → Bool) : List α → Option Nat
  | [] => none
  | x :: xs => if p x then some 0 else (findIndex p xs).map (· + 1)

/-- The in-place update `xs[i] = f(xs[i])`. -/
def updateAt {α : Type} (f : α → α) : Nat → List α → List α
  | _, [] => []
  | 0, x :: xs => f x :: xs
  | i + 1, x :: xs => x :: updateAt f i xs

/-- The callback of `findIndex` in `handleScanResult`:
`item.text === scanData.text && item.format === scanData.format`. -/
def sameCode (result : ScanResult) (item : ScanData) : Bool :=
  decide (item.text = result.text) && decide (item.format = result.format)

/-- The rate-limit test `now - this.lastScanTime < this.settings.scanInterval`. -/
def suppressed (s : Scanner) (c : Clock) : Bool :=
  decide (c.now - s.lastScanTime < s.settings.scanInterval)

/-- The object `scanData` built in `handleScanResult` for an event. -/
def scanData (result : ScanResult) (c : Clock) : ScanData :=
  { id := c.id, text := result.text, format := result.format,
    timestamp := c.timestamp, date := c.date, count := 1 }

/-- The two assignments of the `count` case: `count++` and `date = scanData.date`. -/
def countAgain (date : JsString) (item : ScanData) : ScanData :=
  { item with count := item.count + 1, date := date }

/-- `handleScanResult(result)`: the new scanner state and the calls made, in order. -/
def handleScanResult (rt : Runtime) (s : Scanner) (result : ScanResult) (c : Clock) :
    Scanner × List Effect :=
  if suppressed s c then (s, [])
  else
    let s := { s with lastScanTime := c.now }
    if !s.settings.allowedFormats.contains result.format then
      (s, [.showScanFeedback false .unsupportedFormat])
    else
      match validateScanContent rt s.settings result.text with
      | .invalid message => (s, [.showScanFeedback false message])
      | .valid =>
        let existingIndex := findIndex (sameCode result) s.scanResults
        let (shouldAdd, scanResults, message) : Bool × List ScanData × Message :=
          match s.settings.duplicateRule with
          | .ignore =>
            match existingIndex with
            | none => (true, s.scanResults, .scanOk)
            | some _ => (false, s.scanResults, .duplicateIgnored)
          | .allow => (true, s.scanResults, .scanOk)
          | .count =>
            match existingIndex with
            | none => (true, s.scanResults, .scanOk)
            | some i =>
              let merged := updateAt (countAgain (scanData result c).date) i s.scanResults
              (false, merged, .duplicateCounted (merged.getD i (scanData result c)).count)
          | .other => (false, s.scanResults, .scanOk)
        let s :=
          if shouldAdd then
            { s with scanResults := scanData result c :: scanResults,
                     successCount := s.successCount + 1 }
          else { s with scanResults := scanResults }
        let s := { s with scanCount := s.scanCount + 1 }
        (s, [.saveResults, .renderResults, .updateDisplay, .showScanFeedback true message,
              .playFeedback] ++ playFeedback rt s.settings
              ++ checkAutoExport s.settings s.scanResults)

/-- `deleteResult(id)`. The loose comparison `item.id != id` coerces the id written
into the `onclick` attribute back to a number; `id` is that number. -/
def deleteResult (s : Scanner) (id : Rat) : Scanner × List Effect :=
  let scanResults := s.scanResults.filter (fun item => decide (item.id ≠ id))
  ({ s with scanResults := scanResults, successCount := scanResults.length },
    [.saveResults, .renderResults, .updateDisplay])

/-- `getFilteredResults()`, given the values of the type filter and of the search
input: the scanner, which the method only reads, and the returned array. -/
def getFilteredResults (rt : Runtime) (s : Scanner) (typeFilter searchInput : JsString) :
    Scanner × List ScanData :=
  let filtered := s.scanResults
  let filtered :=
    if truthy typeFilter then filtered.filter (fun item => decide (item.format = typeFilter))
    else filtered
  let filtered :=
    if truthy (trim searchInput) then
      let searchTerm := rt.toLowerCase (trim searchInput)
      filtered.filter (fun item => includes (rt.toLowerCase item.text) searchTerm)
    else filtered
  (s, filtered)

/-! ## Runs of the pipeline -/

/-- The event passes the three gates of `handleScanResult` in state `s`: it is not
suppressed by the rate limit, its format is allowed and its content is valid. -/
def passesGates (rt : Runtime) (s : Scanner) (result : ScanResult) (c : Clock) : Bool :=
  !suppressed s c && s.settings.allowedFormats.contains result.format
    && (validateScanContent rt s.settings result.text).isValid

/-- The scanner after `handleScanResult` has processed the same decode event once
for each clock reading, in order. -/
def handleAll (rt : Runtime) (s : Scanner) (result : ScanResult) : List Clock → Scanner
  | [] => s
  | c :: cs => handleAll rt (handleScanResult rt s result c).1 result cs

/-- Every one of the calls made by `handleAll` passes the three gates. -/
def allPass (rt : Runtime) (s : Scanner) (result : ScanResult) : List Clock → Bool
  | [] => true
  | c :: cs => passesGates rt s result c && allPass rt (handleScanResult rt s result c).1 result cs

/-! ## Derived definitions: closed forms, the reference validator, worked examples -/

/-- The scanner fields after an event that passes the gates. -/
def accepted (s : Scanner) (r : ScanResult) (c : Clock) : Scanner :=
  match s.settings.duplicateRule, findIndex (sameCode r) s.scanResults with
  | .ignore, none | .count, none | .allow, _ =>
    { s with lastScanTime := c.now, scanResults := scanData r c :: s.scanResults,
             successCount := s.successCount + 1, scanCount := s.scanCount + 1 }
  | .count, some i =>
    { s with lastScanTime := c.now, scanResults := updateAt (countAgain c.date) i s.scanResults,
             scanCount := s.scanCount + 1 }
  | .ignore, some _ | .other, _ =>
    { s with lastScanTime := c.now, scanCount := s.scanCount + 1 }

/-- The settings of the scenario: defaults overlaid by the three given fields. -/
def scenarioSettings : Settings :=
  { getDefaultSettings with
    allowedFormats := [js "QR_CODE"], duplicateRule := .count, scanInterval := 0 }

/-- Rule 1 of the reference validator, the regular expression: checked when enabled
and the pattern is non-empty; a pattern that does not compile is a configuration
error, a text that does not match is a mismatch. -/
def regexRule (rt : Runtime) (st : Settings) (text : JsString) : Option Message :=
  if st.enableRegex = true ∧ st.regexPattern ≠ [] then
    match rt.regExp st.regexPattern with
    | none => some .regexConfigError
    | some test => if test text = true then none else some .regexMismatch
  else none

/-- Rule 2 of the reference validator, the length bounds: checked when enabled;
too short is tested before too long. -/
def lengthRule (st : Settings) (text : JsString) : Option Message :=
  if st.enableLength = true then
    if (text.length : Int) < st.minLength then some (.tooShort st.minLength)
    else if st.maxLength < (text.length : Int) then some (.tooLong st.maxLength)
    else none
  else none

/-- Rule 3 of the reference validator: checked when enabled and the required
beginning is non-empty; fails when the text does not start with it. -/
def beginningRule (st : Settings) (text : JsString) : Option Message :=
  if st.enablePrefix = true ∧ st.prefixFilter ≠ [] then
    if st.prefixFilter <+: text then none else some (.missingPrefix st.prefixFilter)
  else none

/-- The reference validator: the first failure among the three rules in the order
regular expression, length, beginning; valid when none fails. -/
def referenceValidate (rt : Runtime) (st : Settings) (text : JsString) : ValidationResult :=
  match [regexRule rt st text, lengthRule st text, beginningRule st text].findSome? id with
  | some reason => .invalid reason
  | none => .valid

/-- The settings of the length scenario: only the length rule, from 5 to 10. -/
def lengthScenarioSettings : Settings :=
  { getDefaultSettings with enableLength := true, minLength := 5, maxLength := 10 }

/-- Shape of a check that either fails with a reason or hands over to the rest. -/
def orElse (rule : Option Message) (rest : ValidationResult) : ValidationResult :=
  match rule with
  | some reason => .invalid reason
  | none => rest

/-- Lower-casing of the ASCII letters, the part of `toLowerCase` used in the examples. -/
def asciiLower (s : JsString) : JsString :=
  s.map (fun c => if 65 ≤ c ∧ c ≤ 90 then c + 32 else c)

/-- Letters and digits of ASCII. -/
def isAlnum (c : Nat) : Bool :=
  (48 ≤ c && c ≤ 57) || (65 ≤ c && c ≤ 90) || (97 ≤ c && c ≤ 122)

/-- A host for the worked examples. Its `RegExp` compiles the patterns made of ASCII
letters and digits, which match the texts that contain them, and reports every other
pattern as a syntax error; it lower-cases ASCII letters; sound and vibration work. -/
def exampleRuntime : Runtime where
  regExp := fun pattern =>
    if pattern.all isAlnum then some (fun text => includes text pattern) else none
  toLowerCase := asciiLower
  audioContext := true
  vibrate := true

/-- A scanner in the state that the constructor and a successful `startScanning`
produce: counters and time of the last scan at 0, scanning on. -/
def scanning (settings : Settings) (scanResults : List ScanData) : Scanner where
  isScanning := true
  scanResults := scanResults
  scanCount := 0
  successCount := 0
  lastScanTime := 0
  settings := settings
  startBtnDisabled := true
  stopBtnDisabled := false

/-- The event ('A', 'QR_CODE'). -/
def eventA : ScanResult := ⟨js "A", js "QR_CODE"⟩

/-- Clock readings one and a half seconds apart. -/
def clockAt (n : Nat) : Clock :=
  { now := 1700000000000 + 1500 * n, id := 1700000000000 + 1500 * n + 1 / 4,
    timestamp := js "2023-11-14T22:13:20.000Z", date := js "2023/11/14 22:13:20" }

/-- A stored record of ('A', 'QR_CODE'). -/
def recordA : ScanData :=
  { id := 1699999999000, text := js "A", format := js "QR_CODE",
    timestamp := js "2023-11-14T22:13:19.000Z", date := js "2023/11/14 22:13:19", count := 1 }

/-- A stored record with the text 'ab'. -/
def recordAb : ScanData :=
  { id := 1699999998000, text := js "ab", format := js "QR_CODE",
    timestamp := js "2023-11-14T22:13:18.000Z", date := js "2023/11/14 22:13:18", count := 1 }

/-- The default settings with the rule `allow`. -/
def allowSettings : Settings :=
  { getDefaultSettings with duplicateRule := .allow }

/-! ## Starting and stopping the camera -/

/-- How the promise of `navigator.mediaDevices.getUserMedia` settles: with a stream,
or rejected because permission is denied or no device is available. -/
inductive CameraResult where
  | stream
  | permissionDenied
  | deviceUnavailable
  deriving DecidableEq, Repr

/-- Calls made by `startScanning` and `stopScanning` outside the scanner fields. -/
inductive CameraCall where
  | getUserMedia
  /-- `this.video.srcObject = stream`. -/
  | attachStream
  | decodeFromVideoDevice
  /-- `console.error('启动扫码失败:', error)`. -/
  | consoleError
  /-- `alert('无法访问摄像头，请检查权限设置')`. -/
  | alert
  /-- `this.codeReader.reset()`. -/
  | codeReaderReset
  /-- The tracks of the stream stopped and `srcObject` cleared. -/
  | releaseStream
  deriving DecidableEq, Repr

/-- `resetButtons()`. -/
def resetButtons (s : Scanner) : Scanner :=
  { s with startBtnDisabled := false, stopBtnDisabled := true }

/-- `startScanning()`, given how `getUserMedia` settles. The three assignments at the
top of the `try` block run first; a rejected promise throws at the `await` and the
`catch` block logs, alerts and calls `resetButtons`. -/
def startScanning (s : Scanner) (camera : CameraResult) : Scanner × List CameraCall :=
  let s := { s with startBtnDisabled := true, stopBtnDisabled := false, isScanning := true }
  match camera with
  | .stream => (s, [.getUserMedia, .attachStream, .decodeFromVideoDevice])
  | .permissionDenied | .deviceUnavailable =>
    (resetButtons s, [.getUserMedia, .consoleError, .alert])

/-- `stopScanning()`, given whether the video element holds a stream. -/
def stopScanning (s : Scanner) (srcObject : Bool) : Scanner × List CameraCall :=
  let s := { s with isScanning := false }
  (resetButtons s, .codeReaderReset :: (if srcObject then [.releaseStream] else []))

/-- A scanner as the constructor leaves it, with the buttons in the state of
`resetButtons`: not scanning, counters and time of the last scan at 0. -/
def idle (settings : Settings) (scanResults : List ScanData) : Scanner where
  isScanning := false
  scanResults := scanResults
  scanCount := 0
  successCount := 0
  lastScanTime := 0
  settings := settings
  startBtnDisabled := false
  stopBtnDisabled := true

/-- The scenario settings with the default interval of 1000 ms. -/
def throttledSettings : Settings :=
  { scenarioSettings with scanInterval := 1000 }

/-- The event ('B', 'CODE_128'). -/
def eventB : ScanResult := ⟨js "B", js "CODE_128"⟩

/-- A clock reading 500 ms after `clockAt 0`. -/
def clockHalf : Clock :=
  { now := 1700000000500, id := 1700000000500 + 1 / 2,
    timestamp := js "2023-11-14T22:13:20.500Z", date := js "2023/11/14 22:13:20" }

/-! ## Theorems -/

theorem passesGates_iff (rt : Runtime) (s : Scanner) (r : ScanResult) (c : Clock) :
    passesGates rt s r c = true ↔
      suppressed s c = false ∧ s.settings.allowedFormats.contains r.format = true
        ∧ validateScanContent rt s.settings r.text = .valid := by
  unfold passesGates
  cases hv : validateScanContent rt s.settings r.text <;>
    simp [ValidationResult.isValid, and_assoc]

theorem handleScanResult_of_pass (rt : Runtime) (s : Scanner) (r : ScanResult) (c : Clock)
    (h : passesGates rt s r c = true) :
    (handleScanResult rt s r c).1 = accepted s r c := by
  obtain ⟨h1, h2, h3⟩ := (passesGates_iff rt s r c).1 h
  unfold handleScanResult accepted
  simp only [h1, h2, h3]
  cases hr : s.settings.duplicateRule <;> cases hi : findIndex (sameCode r) s.scanResults <;>
    simp [scanData]

theorem findIndex_eq_none {α : Type} (p : α → Bool) (l : List α) :
    findIndex p l = none ↔ ∀ x ∈ l, p x = false := by
  induction l with
  | nil => simp [findIndex]
  | cons x xs ih =>
    by_cases hx : p x = true
    · simp [findIndex, hx]
    · simp [findIndex, hx, ih]

theorem findIndex_head {α : Type} (p : α → Bool) (x : α) (xs : List α) (hx : p x = true) :
    findIndex p (x :: xs) = some 0 := by
  simp [findIndex, hx]

theorem accepted_settings (s : Scanner) (r : ScanResult) (c : Clock) :
    (accepted s r c).settings = s.settings := by
  unfold accepted
  split <;> rfl

theorem sameCode_iff (r : ScanResult) (item : ScanData) :
    sameCode r item = true ↔ item.text = r.text ∧ item.format = r.format := by
  simp [sameCode]

theorem filter_sameCode_fresh (r : ScanResult) (l : List ScanData)
    (h : ∀ item ∈ l, sameCode r item = false) : l.filter (sameCode r) = [] := by
  simpa [List.filter_eq_nil_iff] using h

/-- Under the `count` rule, once a matching record heads the list, every further
accepted occurrence of the event adds one to the count of that record. -/
theorem handleAll_count_merge (rt : Runtime) (r : ScanResult) :
    ∀ (cs : List Clock) (s : Scanner) (item : ScanData) (rest : List ScanData),
      s.settings.duplicateRule = .count → s.scanResults = item :: rest →
      sameCode r item = true → allPass rt s r cs = true →
      ∃ item', (handleAll rt s r cs).scanResults = item' :: rest
        ∧ item'.count = item.count + cs.length ∧ item'.text = item.text
        ∧ item'.format = item.format ∧ item'.id = item.id
        ∧ item'.timestamp = item.timestamp := by
  intro cs
  induction cs with
  | nil =>
    intro s item rest _ hl _ _
    exact ⟨item, by simpa [handleAll] using hl, by simp, rfl, rfl, rfl, rfl⟩
  | cons c cs ih =>
    intro s item rest hrule hl hitem hpass
    simp only [allPass, Bool.and_eq_true] at hpass
    obtain ⟨hc, hcs⟩ := hpass
    have hstep := handleScanResult_of_pass rt s r c hc
    have hacc : accepted s r c =
        { s with lastScanTime := c.now, scanResults := countAgain c.date item :: rest,
                 scanCount := s.scanCount + 1 } := by
      unfold accepted
      rw [hrule, hl, findIndex_head _ _ _ hitem]
      simp [updateAt]
    rw [hstep, hacc] at hcs
    have hsame : sameCode r (countAgain c.date item) = true := by
      simpa [sameCode, countAgain] using hitem
    obtain ⟨item', h1, h2, h3, h4, h5, h6⟩ :=
      ih { s with lastScanTime := c.now, scanResults := countAgain c.date item :: rest,
                  scanCount := s.scanCount + 1 } (countAgain c.date item) rest hrule rfl hsame hcs
    refine ⟨item', ?_, ?_, ?_, ?_, ?_, ?_⟩
    · simpa [handleAll, hstep, hacc] using h1
    · simp [h2, countAgain]; omega
    · simpa [countAgain] using h3
    · simpa [countAgain] using h4
    · simpa [countAgain] using h5
    · simpa [countAgain] using h6

theorem validate_scenario (rt : Runtime) (text : JsString) :
    validateScanContent rt scenarioSettings text = .valid := by
  simp [validateScanContent, scenarioSettings, getDefaultSettings]

theorem passes_scenario (rt : Runtime) (s : Scanner) (text : JsString) (c : Clock)
    (hs : s.settings = scenarioSettings) (ht : s.lastScanTime ≤ c.now) :
    passesGates rt s ⟨text, js "QR_CODE"⟩ c = true := by
  rw [passesGates_iff, hs, validate_scenario]
  have hq : scenarioSettings.allowedFormats.contains (js "QR_CODE") = true := by decide
  refine ⟨?_, hq, rfl⟩
  simp [suppressed, hs, scenarioSettings]
  omega

theorem handleScanResult_of_badFormat (rt : Runtime) (s : Scanner) (r : ScanResult) (c : Clock)
    (h1 : suppressed s c = false) (h2 : s.settings.allowedFormats.contains r.format = false) :
    handleScanResult rt s r c
      = ({ s with lastScanTime := c.now }, [.showScanFeedback false .unsupportedFormat]) := by
  unfold handleScanResult
  simp only [h1, h2, Bool.false_eq_true, if_false, Bool.not_false, if_true]

/-- C1. Under `duplicateRule = 'count'`, processing the same event N ≥ 1 times, every
time through the three gates, from a list without a record of that (text, format),
leaves exactly one record of that (text, format), placed in front of the old list,
and its count is N. Scenario: allowedFormats `['QR_CODE']`, scanInterval 0, events
('A','QR_CODE'), ('A','QR_CODE'), ('B','CODE_128') from an empty list leave the single
record 'A' with count 2, and 'B' is rejected for its format. -/
theorem count_rule_counts_occurrences (rt : Runtime) (s : Scanner) (r : ScanResult)
    (cs : List Clock)
    (hrule : s.settings.duplicateRule = .count)
    (hfresh : ∀ item ∈ s.scanResults, sameCode r item = false)
    (hN : 1 ≤ cs.length)
    (hpass : allPass rt s r cs = true) :
    (∃ item, (handleAll rt s r cs).scanResults = item :: s.scanResults
        ∧ (handleAll rt s r cs).scanResults.filter (sameCode r) = [item]
        ∧ item.text = r.text ∧ item.format = r.format ∧ item.count = cs.length)
    ∧ (∀ (s0 : Scanner) (c1 c2 c3 : Clock),
        s0.settings = scenarioSettings → s0.scanResults = [] →
        s0.lastScanTime ≤ c1.now → c1.now ≤ c2.now → c2.now ≤ c3.now →
        (handleScanResult rt
          (handleScanResult rt (handleScanResult rt s0 ⟨js "A", js "QR_CODE"⟩ c1).1
            ⟨js "A", js "QR_CODE"⟩ c2).1 ⟨js "B", js "CODE_128"⟩ c3)
          = ({ s0 with
                lastScanTime := c3.now, scanCount := s0.scanCount + 2,
                successCount := s0.successCount + 1,
                scanResults := [{ id := c1.id, text := js "A", format := js "QR_CODE",
                                  timestamp := c1.timestamp, date := c2.date, count := 2 }] },
             [.showScanFeedback false .unsupportedFormat])) := by
  constructor
  · cases cs with
    | nil => simp at hN
    | cons c cs =>
      simp only [allPass, Bool.and_eq_true] at hpass
      obtain ⟨hc, hcs⟩ := hpass
      have hstep := handleScanResult_of_pass rt s r c hc
      have hacc : accepted s r c =
          { s with lastScanTime := c.now, scanResults := scanData r c :: s.scanResults,
                   successCount := s.successCount + 1, scanCount := s.scanCount + 1 } := by
        unfold accepted
        rw [hrule, (findIndex_eq_none _ _).2 hfresh]
      rw [hstep, hacc] at hcs
      have hsame : sameCode r (scanData r c) = true := by simp [sameCode, scanData]
      obtain ⟨item, h1, h2, h3, h4, _, _⟩ :=
        handleAll_count_merge rt r cs
          { s with lastScanTime := c.now, scanResults := scanData r c :: s.scanResults,
                   successCount := s.successCount + 1, scanCount := s.scanCount + 1 }
          (scanData r c) s.scanResults hrule rfl hsame hcs
      have hitem : sameCode r item = true := by
        rw [sameCode_iff, h3, h4]; simp [scanData]
      refine ⟨item, ?_, ?_, ?_, ?_, ?_⟩
      · simpa [handleAll, hstep, hacc] using h1
      · simp only [handleAll, hstep, hacc]
        rw [h1, List.filter_cons_of_pos hitem, filter_sameCode_fresh r _ hfresh]
      · simpa [scanData] using h3
      · simpa [scanData] using h4
      · simp [h2, scanData]; omega
  · intro s0 c1 c2 c3 hs hl h1 h2 h3
    have p1 := passes_scenario rt s0 (js "A") c1 hs h1
    rw [handleScanResult_of_pass rt s0 _ c1 p1]
    have a1 : accepted s0 ⟨js "A", js "QR_CODE"⟩ c1 =
        { s0 with lastScanTime := c1.now,
                  scanResults := [scanData ⟨js "A", js "QR_CODE"⟩ c1],
                  successCount := s0.successCount + 1, scanCount := s0.scanCount + 1 } := by
      unfold accepted
      rw [hs, hl]
      simp [scenarioSettings, findIndex]
    rw [a1]
    have p2 := passes_scenario rt
      { s0 with lastScanTime := c1.now,
                scanResults := [scanData ⟨js "A", js "QR_CODE"⟩ c1],
                successCount := s0.successCount + 1, scanCount := s0.scanCount + 1 }
      (js "A") c2 hs h2
    rw [handleScanResult_of_pass rt _ _ c2 p2]
    have a2 : accepted
        { s0 with lastScanTime := c1.now,
                  scanResults := [scanData ⟨js "A", js "QR_CODE"⟩ c1],
                  successCount := s0.successCount + 1, scanCount := s0.scanCount + 1 }
        ⟨js "A", js "QR_CODE"⟩ c2 =
        { s0 with lastScanTime := c2.now,
                  scanResults := [countAgain c2.date (scanData ⟨js "A", js "QR_CODE"⟩ c1)],
                  successCount := s0.successCount + 1, scanCount := s0.scanCount + 2 } := by
      unfold accepted
      simp [hs, scenarioSettings, findIndex, sameCode, scanData, updateAt]
    rw [a2]
    have hB : scenarioSettings.allowedFormats.contains (js "CODE_128") = false := by decide
    rw [handleScanResult_of_badFormat rt _ _ c3
      (by simp [suppressed, hs, scenarioSettings]; omega) (by simpa [hs] using hB)]
    simp [countAgain, scanData]

/-- Instance of C1: two scans of ('A','QR_CODE') under the scenario settings, from an
empty list, both through the gates, leave one record, with count 2. -/
theorem count_rule_counts_occurrences_witness :
    allPass exampleRuntime (scanning scenarioSettings []) eventA [clockAt 0, clockAt 1] = true
    ∧ ∃ item,
        (handleAll exampleRuntime (scanning scenarioSettings []) eventA
          [clockAt 0, clockAt 1]).scanResults = [item]
        ∧ item.text = js "A" ∧ item.format = js "QR_CODE" ∧ item.count = 2 := by
  refine ⟨by decide, ?_⟩
  obtain ⟨item, h1, _, h3, h4, h5⟩ :=
    (count_rule_counts_occurrences exampleRuntime (scanning scenarioSettings []) eventA
      [clockAt 0, clockAt 1] (by decide) (by decide) (by decide) (by decide)).1
  exact ⟨item, h1, h3, h4, h5⟩

theorem sameCode_scanData (r : ScanResult) (c : Clock) : sameCode r (scanData r c) = true := by
  simp [sameCode, scanData]

/-- C2. Under `duplicateRule = 'ignore'`, processing the same event twice, both times
through the three gates, from a list without a record of that (text, format): the
first call puts the new record in front, the second call leaves the list as it is,
and exactly one record of that (text, format) is stored. -/
theorem ignore_rule_stores_once (rt : Runtime) (s : Scanner) (r : ScanResult) (c1 c2 : Clock)
    (hrule : s.settings.duplicateRule = .ignore)
    (hfresh : ∀ item ∈ s.scanResults, sameCode r item = false)
    (h1 : passesGates rt s r c1 = true)
    (h2 : passesGates rt (handleScanResult rt s r c1).1 r c2 = true) :
    (handleScanResult rt s r c1).1.scanResults = scanData r c1 :: s.scanResults
    ∧ (handleScanResult rt (handleScanResult rt s r c1).1 r c2).1.scanResults
        = (handleScanResult rt s r c1).1.scanResults
    ∧ (handleScanResult rt (handleScanResult rt s r c1).1 r c2).1.scanResults.filter (sameCode r)
        = [scanData r c1] := by
  have e1 : (handleScanResult rt s r c1).1 =
      { s with lastScanTime := c1.now, scanResults := scanData r c1 :: s.scanResults,
               successCount := s.successCount + 1, scanCount := s.scanCount + 1 } := by
    rw [handleScanResult_of_pass rt s r c1 h1]
    unfold accepted
    rw [hrule, (findIndex_eq_none _ _).2 hfresh]
  rw [e1] at h2 ⊢
  have e2 := handleScanResult_of_pass rt _ r c2 h2
  have a2 : (accepted
      { s with lastScanTime := c1.now, scanResults := scanData r c1 :: s.scanResults,
               successCount := s.successCount + 1, scanCount := s.scanCount + 1 } r c2).scanResults
      = scanData r c1 :: s.scanResults := by
    unfold accepted
    simp only [hrule, findIndex_head _ _ _ (sameCode_scanData r c1)]
  rw [e2, a2]
  refine ⟨rfl, rfl, ?_⟩
  rw [List.filter_cons_of_pos (sameCode_scanData r c1), filter_sameCode_fresh r _ hfresh]

/-- Instance of C2: under the default settings (rule `ignore`, interval 1000) two
scans of ('A','QR_CODE') 1500 ms apart both pass the gates and one record is stored. -/
theorem ignore_rule_stores_once_witness :
    passesGates exampleRuntime (scanning getDefaultSettings []) eventA (clockAt 0) = true
    ∧ passesGates exampleRuntime
        (handleScanResult exampleRuntime (scanning getDefaultSettings []) eventA (clockAt 0)).1
        eventA (clockAt 1) = true
    ∧ (handleScanResult exampleRuntime
        (handleScanResult exampleRuntime (scanning getDefaultSettings []) eventA (clockAt 0)).1
        eventA (clockAt 1)).1.scanResults.filter (sameCode eventA)
        = [scanData eventA (clockAt 0)] :=
  ⟨by decide, by decide,
    (ignore_rule_stores_once exampleRuntime (scanning getDefaultSettings []) eventA
      (clockAt 0) (clockAt 1) (by decide) (by decide) (by decide) (by decide)).2.2⟩

theorem handleAll_allow (rt : Runtime) (r : ScanResult) :
    ∀ (cs : List Clock) (s : Scanner), s.settings.duplicateRule = .allow →
      allPass rt s r cs = true →
      (handleAll rt s r cs).scanResults = (cs.map (scanData r)).reverse ++ s.scanResults := by
  intro cs
  induction cs with
  | nil => intro s _ _; simp [handleAll]
  | cons c cs ih =>
    intro s hrule hpass
    simp only [allPass, Bool.and_eq_true] at hpass
    obtain ⟨hc, hcs⟩ := hpass
    have hstep : (handleScanResult rt s r c).1 =
        { s with lastScanTime := c.now, scanResults := scanData r c :: s.scanResults,
                 successCount := s.successCount + 1, scanCount := s.scanCount + 1 } := by
      rw [handleScanResult_of_pass rt s r c hc]
      unfold accepted
      simp only [hrule]
    rw [hstep] at hcs
    simp only [handleAll, hstep]
    have hi := ih { s with lastScanTime := c.now, scanResults := scanData r c :: s.scanResults,
                            successCount := s.successCount + 1, scanCount := s.scanCount + 1 }
      hrule hcs
    rw [hi]
    simp

/-- C3. Under `duplicateRule = 'allow'`, processing the same event N ≥ 0 times, every
time through the three gates, from any record list, puts N new records of that
(text, format) in front of the old list, newest first: the list grows by N and the
number of stored records of that (text, format) grows by N. -/
theorem allow_rule_adds_each (rt : Runtime) (s : Scanner) (r : ScanResult) (cs : List Clock)
    (hrule : s.settings.duplicateRule = .allow)
    (hpass : allPass rt s r cs = true) :
    (handleAll rt s r cs).scanResults = (cs.map (scanData r)).reverse ++ s.scanResults
    ∧ (∀ item ∈ (cs.map (scanData r)).reverse, item.text = r.text ∧ item.format = r.format)
    ∧ (handleAll rt s r cs).scanResults.length = cs.length + s.scanResults.length
    ∧ ((handleAll rt s r cs).scanResults.filter (sameCode r)).length
        = cs.length + (s.scanResults.filter (sameCode r)).length := by
  have h := handleAll_allow rt r cs s hrule hpass
  have hall : ∀ item ∈ (cs.map (scanData r)).reverse, sameCode r item = true := by
    intro item hitem
    simp only [List.mem_reverse, List.mem_map] at hitem
    obtain ⟨c, _, rfl⟩ := hitem
    exact sameCode_scanData r c
  refine ⟨h, ?_, ?_, ?_⟩
  · intro item hitem
    exact (sameCode_iff r item).1 (hall item hitem)
  · rw [h]; simp
  · rw [h, List.filter_append, List.filter_eq_self.2 hall]
    simp

/-- Instance of C3: under the rule `allow` three scans of ('A','QR_CODE'), 1500 ms
apart, on top of one stored record of it, leave four records of it. -/
theorem allow_rule_adds_each_witness :
    allPass exampleRuntime (scanning allowSettings [recordA]) eventA
        [clockAt 0, clockAt 1, clockAt 2] = true
    ∧ (handleAll exampleRuntime (scanning allowSettings [recordA]) eventA
        [clockAt 0, clockAt 1, clockAt 2]).scanResults
      = [scanData eventA (clockAt 2), scanData eventA (clockAt 1), scanData eventA (clockAt 0),
          recordA] :=
  ⟨by decide,
    (allow_rule_adds_each exampleRuntime (scanning allowSettings [recordA]) eventA
      [clockAt 0, clockAt 1, clockAt 2] (by decide) (by decide)).1⟩

theorem updateAt_length {α : Type} (f : α → α) (i : Nat) (l : List α) :
    (updateAt f i l).length = l.length := by
  induction l generalizing i with
  | nil => cases i <;> rfl
  | cons x xs ih =>
    cases i with
    | zero => rfl
    | succ i => simp [updateAt, ih]

/-- What an event that fails a gate does: nothing when it is suppressed, otherwise
the time of the last scan is set and one failure message is shown. -/
theorem handleScanResult_of_fail (rt : Runtime) (s : Scanner) (r : ScanResult) (c : Clock)
    (h : passesGates rt s r c = false) :
    handleScanResult rt s r c = (s, [])
      ∨ ∃ message, handleScanResult rt s r c
          = ({ s with lastScanTime := c.now }, [.showScanFeedback false message]) := by
  unfold handleScanResult
  by_cases h1 : suppressed s c = true
  · left; simp [h1]
  · right
    simp only [Bool.not_eq_true] at h1
    by_cases h2 : s.settings.allowedFormats.contains r.format = true
    · cases hv : validateScanContent rt s.settings r.text with
      | valid =>
        rw [(passesGates_iff rt s r c).2 ⟨h1, h2, hv⟩] at h
        cases h
      | invalid message =>
        refine ⟨message, ?_⟩
        simp only [h1, h2, hv, Bool.false_eq_true, if_false, Bool.not_true]
    · refine ⟨.unsupportedFormat, ?_⟩
      simp only [Bool.not_eq_true] at h2
      simp only [h1, h2, Bool.false_eq_true, if_false, Bool.not_false, if_true]

theorem handleScanResult_settings (rt : Runtime) (s : Scanner) (r : ScanResult) (c : Clock) :
    (handleScanResult rt s r c).1.settings = s.settings := by
  cases h : passesGates rt s r c with
  | true => rw [handleScanResult_of_pass rt s r c h, accepted_settings]
  | false =>
    rcases handleScanResult_of_fail rt s r c h with e | ⟨_, e⟩ <;> rw [e]

/-- The calls made for an event that passes the gates. -/
theorem handleScanResult_effects_of_pass (rt : Runtime) (s : Scanner) (r : ScanResult)
    (c : Clock) (h : passesGates rt s r c = true) :
    ∃ message, (handleScanResult rt s r c).2
      = [.saveResults, .renderResults, .updateDisplay, .showScanFeedback true message,
          .playFeedback] ++ playFeedback rt s.settings
          ++ checkAutoExport s.settings (handleScanResult rt s r c).1.scanResults := by
  obtain ⟨h1, h2, h3⟩ := (passesGates_iff rt s r c).1 h
  unfold handleScanResult
  simp only [h1, h2, h3]
  cases hr : s.settings.duplicateRule <;> cases hi : findIndex (sameCode r) s.scanResults <;>
    simp

theorem accepted_scanCount (s : Scanner) (r : ScanResult) (c : Clock) :
    (accepted s r c).scanCount = s.scanCount + 1 := by
  unfold accepted
  split <;> rfl

theorem accepted_lastScanTime (s : Scanner) (r : ScanResult) (c : Clock) :
    (accepted s r c).lastScanTime = c.now := by
  unfold accepted
  split <;> rfl

theorem handleScanResult_of_suppressed (rt : Runtime) (s : Scanner) (r : ScanResult) (c : Clock)
    (h : suppressed s c = true) : handleScanResult rt s r c = (s, []) := by
  unfold handleScanResult
  simp only [h, if_true]

/-- C4. Rate limit between two consecutive events at times t1 ≤ t2, the first not
suppressed and both with an allowed format and valid content: the second is
suppressed exactly when t2 - t1 < scanInterval; a suppressed second event changes
nothing and makes no call, so the two events count as one accepted scan when
t2 - t1 < scanInterval and as two otherwise. With scanInterval 1000 that is one for
events 500 ms apart and two for events 1500 ms apart. -/
theorem rate_limit_between_events (rt : Runtime) (s : Scanner) (r1 r2 : ScanResult)
    (c1 c2 : Clock)
    (_ht : c1.now ≤ c2.now)
    (h1 : suppressed s c1 = false)
    (hf1 : s.settings.allowedFormats.contains r1.format = true)
    (hv1 : validateScanContent rt s.settings r1.text = .valid)
    (hf2 : s.settings.allowedFormats.contains r2.format = true)
    (hv2 : validateScanContent rt s.settings r2.text = .valid) :
    (suppressed (handleScanResult rt s r1 c1).1 c2 = true
        ↔ c2.now - c1.now < s.settings.scanInterval)
    ∧ (c2.now - c1.now < s.settings.scanInterval →
        handleScanResult rt (handleScanResult rt s r1 c1).1 r2 c2
          = ((handleScanResult rt s r1 c1).1, []))
    ∧ (handleScanResult rt (handleScanResult rt s r1 c1).1 r2 c2).1.scanCount
        = s.scanCount + (if c2.now - c1.now < s.settings.scanInterval then 1 else 2)
    ∧ (s.settings.scanInterval = 1000 → c2.now = c1.now + 500 →
        (handleScanResult rt (handleScanResult rt s r1 c1).1 r2 c2).1.scanCount
          = s.scanCount + 1)
    ∧ (s.settings.scanInterval = 1000 → c2.now = c1.now + 1500 →
        (handleScanResult rt (handleScanResult rt s r1 c1).1 r2 c2).1.scanCount
          = s.scanCount + 2) := by
  have p1 : passesGates rt s r1 c1 = true := (passesGates_iff rt s r1 c1).2 ⟨h1, hf1, hv1⟩
  have e1 := handleScanResult_of_pass rt s r1 c1 p1
  have hsup : suppressed (handleScanResult rt s r1 c1).1 c2 = true
      ↔ c2.now - c1.now < s.settings.scanInterval := by
    rw [e1]
    simp [suppressed, accepted_settings, accepted_lastScanTime]
  have hdrop : c2.now - c1.now < s.settings.scanInterval →
      handleScanResult rt (handleScanResult rt s r1 c1).1 r2 c2
        = ((handleScanResult rt s r1 c1).1, []) := by
    intro hlt
    exact handleScanResult_of_suppressed rt _ r2 c2 (hsup.2 hlt)
  have hcount : (handleScanResult rt (handleScanResult rt s r1 c1).1 r2 c2).1.scanCount
      = s.scanCount + (if c2.now - c1.now < s.settings.scanInterval then 1 else 2) := by
    by_cases hlt : c2.now - c1.now < s.settings.scanInterval
    · rw [hdrop hlt, if_pos hlt, e1, accepted_scanCount]
    · have hns : suppressed (handleScanResult rt s r1 c1).1 c2 = false := by
        cases hb : suppressed (handleScanResult rt s r1 c1).1 c2 with
        | false => rfl
        | true => exact absurd (hsup.1 hb) hlt
      have p2 : passesGates rt (handleScanResult rt s r1 c1).1 r2 c2 = true := by
        rw [passesGates_iff, handleScanResult_settings]
        exact ⟨hns, hf2, hv2⟩
      rw [handleScanResult_of_pass rt _ r2 c2 p2, accepted_scanCount, e1, accepted_scanCount,
        if_neg hlt]
  refine ⟨hsup, hdrop, hcount, ?_, ?_⟩
  · intro hi hc
    rw [hcount, if_pos (by omega)]
  · intro hi hc
    rw [hcount, if_neg (by omega)]

/-- Instance of C4: with the default interval of 1000 ms, a second event 1500 ms after
an accepted one is not suppressed and both are counted. -/
theorem rate_limit_between_events_witness :
    suppressed (scanning getDefaultSettings []) (clockAt 0) = false
    ∧ (handleScanResult exampleRuntime
        (handleScanResult exampleRuntime (scanning getDefaultSettings []) eventA (clockAt 0)).1
        eventA (clockAt 1)).1.scanCount = 0 + 2 :=
  ⟨by decide,
    (rate_limit_between_events exampleRuntime (scanning getDefaultSettings []) eventA eventA
      (clockAt 0) (clockAt 1) (by decide) (by decide) (by decide) (by decide) (by decide)
      (by decide)).2.2.2.2 (by decide) (by decide)⟩

/-- C5. An event that is suppressed by the rate limit, or whose format is not allowed,
or whose content is invalid, leaves the record list, scanCount and successCount as
they were. -/
theorem failed_gate_keeps_records_and_counters (rt : Runtime) (s : Scanner) (r : ScanResult)
    (c : Clock)
    (h : suppressed s c = true ∨ s.settings.allowedFormats.contains r.format = false
          ∨ (validateScanContent rt s.settings r.text).isValid = false) :
    (handleScanResult rt s r c).1.scanResults = s.scanResults
    ∧ (handleScanResult rt s r c).1.scanCount = s.scanCount
    ∧ (handleScanResult rt s r c).1.successCount = s.successCount := by
  have hp : passesGates rt s r c = false := by
    unfold passesGates
    rcases h with h | h | h <;> rw [h] <;> simp
  rcases handleScanResult_of_fail rt s r c hp with e | ⟨_, e⟩ <;> rw [e] <;> exact ⟨rfl, rfl, rfl⟩

/-- Instance of C5: an event of the format 'CODE_128' under the scenario settings,
which allow 'QR_CODE' only, leaves the records and the counters alone. -/
theorem failed_gate_keeps_records_and_counters_witness :
    scenarioSettings.allowedFormats.contains (js "CODE_128") = false
    ∧ (handleScanResult exampleRuntime (scanning scenarioSettings [recordA])
        ⟨js "B", js "CODE_128"⟩ (clockAt 0)).1.scanResults = [recordA]
    ∧ (handleScanResult exampleRuntime (scanning scenarioSettings [recordA])
        ⟨js "B", js "CODE_128"⟩ (clockAt 0)).1.scanCount = 0
    ∧ (handleScanResult exampleRuntime (scanning scenarioSettings [recordA])
        ⟨js "B", js "CODE_128"⟩ (clockAt 0)).1.successCount = 0 :=
  ⟨by decide,
    failed_gate_keeps_records_and_counters exampleRuntime (scanning scenarioSettings [recordA])
      ⟨js "B", js "CODE_128"⟩ (clockAt 0) (Or.inr (Or.inl (by decide)))⟩

/-- C6. An event that passes the three gates adds exactly 1 to scanCount whatever the
duplicate rule decides; it either puts the new record in front of the list, adding
exactly 1 to successCount, or keeps the length of the list, leaving successCount as
it was. The record is inserted exactly under `allow`, or under `ignore` or `count`
when no stored record has the event's (text, format). -/
theorem counters_after_accepted_event (rt : Runtime) (s : Scanner) (r : ScanResult) (c : Clock)
    (h : passesGates rt s r c = true) :
    (handleScanResult rt s r c).1.scanCount = s.scanCount + 1
    ∧ (((handleScanResult rt s r c).1.scanResults = scanData r c :: s.scanResults
          ∧ (handleScanResult rt s r c).1.successCount = s.successCount + 1)
        ∨ ((handleScanResult rt s r c).1.scanResults.length = s.scanResults.length
          ∧ (handleScanResult rt s r c).1.successCount = s.successCount))
    ∧ ((handleScanResult rt s r c).1.scanResults.length = s.scanResults.length + 1
        ↔ (s.settings.duplicateRule = .allow
            ∨ ((s.settings.duplicateRule = .ignore ∨ s.settings.duplicateRule = .count)
                ∧ ∀ item ∈ s.scanResults, sameCode r item = false))) := by
  rw [handleScanResult_of_pass rt s r c h]
  refine ⟨accepted_scanCount s r c, ?_, ?_⟩
  · unfold accepted
    cases hr : s.settings.duplicateRule <;> cases hi : findIndex (sameCode r) s.scanResults <;>
      simp [updateAt_length]
  · rw [← findIndex_eq_none]
    unfold accepted
    cases hr : s.settings.duplicateRule <;> cases hi : findIndex (sameCode r) s.scanResults <;>
      simp [updateAt_length]

/-- Instance of C6: a duplicate merged under the rule `count` adds 1 to scanCount and
leaves successCount at its value. -/
theorem counters_after_accepted_event_witness :
    passesGates exampleRuntime (scanning scenarioSettings [recordA]) eventA (clockAt 0) = true
    ∧ (handleScanResult exampleRuntime (scanning scenarioSettings [recordA]) eventA
        (clockAt 0)).1.scanCount = 0 + 1 :=
  ⟨by decide,
    (counters_after_accepted_event exampleRuntime (scanning scenarioSettings [recordA]) eventA
      (clockAt 0) (by decide)).1⟩

theorem truthy_iff (s : JsString) : truthy s = true ↔ s ≠ [] := by
  cases s <;> simp [truthy]

theorem beginning_layer (st : Settings) (text : JsString) :
    (if (st.enablePrefix && truthy st.prefixFilter) = true then
        if (!startsWith text st.prefixFilter) = true then
          ValidationResult.invalid (.missingPrefix st.prefixFilter)
        else .valid
      else .valid) = orElse (beginningRule st text) .valid := by
  unfold beginningRule startsWith orElse
  by_cases h : st.enablePrefix = true ∧ st.prefixFilter ≠ []
  · have h' : (st.enablePrefix && truthy st.prefixFilter) = true := by
      simpa [truthy_iff] using h
    rw [if_pos h, if_pos h']
    by_cases hp : st.prefixFilter <+: text
    · have hb : List.isPrefixOf st.prefixFilter text = true := List.isPrefixOf_iff_prefix.2 hp
      simp [hb, hp]
    · have hb : List.isPrefixOf st.prefixFilter text = false := by
        cases hx : List.isPrefixOf st.prefixFilter text with
        | false => rfl
        | true => exact absurd (List.isPrefixOf_iff_prefix.1 hx) hp
      simp [hb, hp]
  · have h' : ¬ (st.enablePrefix && truthy st.prefixFilter) = true := by
      simpa [truthy_iff] using h
    rw [if_neg h, if_neg h']

theorem length_layer (st : Settings) (text : JsString) (rest : ValidationResult) :
    (if st.enableLength = true then
        if (text.length : Int) < st.minLength then ValidationResult.invalid (.tooShort st.minLength)
        else if (text.length : Int) > st.maxLength then .invalid (.tooLong st.maxLength)
        else rest
      else rest) = orElse (lengthRule st text) rest := by
  unfold lengthRule orElse
  by_cases h : st.enableLength = true
  · rw [if_pos h, if_pos h]
    by_cases h1 : (text.length : Int) < st.minLength
    · simp [h1]
    · by_cases h2 : st.maxLength < (text.length : Int)
      · simp [h1, h2]
      · simp [h1, h2]
  · rw [if_neg h, if_neg h]

theorem regex_layer (rt : Runtime) (st : Settings) (text : JsString) (rest : ValidationResult) :
    (if (st.enableRegex && truthy st.regexPattern) = true then
        match rt.regExp st.regexPattern with
        | none => ValidationResult.invalid .regexConfigError
        | some test => if (!test text) = true then .invalid .regexMismatch else rest
      else rest) = orElse (regexRule rt st text) rest := by
  unfold regexRule orElse
  by_cases h : st.enableRegex = true ∧ st.regexPattern ≠ []
  · have h' : (st.enableRegex && truthy st.regexPattern) = true := by
      simpa [truthy_iff] using h
    rw [if_pos h, if_pos h']
    cases hre : rt.regExp st.regexPattern with
    | none => rfl
    | some test => cases ht : test text <;> simp [ht]
  · have h' : ¬ (st.enableRegex && truthy st.regexPattern) = true := by
      simpa [truthy_iff] using h
    rw [if_neg h, if_neg h']

theorem validateScanContent_layers (rt : Runtime) (st : Settings) (text : JsString) :
    validateScanContent rt st text
      = orElse (regexRule rt st text)
          (orElse (lengthRule st text) (orElse (beginningRule st text) .valid)) := by
  unfold validateScanContent
  dsimp only
  rw [regex_layer, length_layer, beginning_layer]

theorem referenceValidate_layers (rt : Runtime) (st : Settings) (text : JsString) :
    referenceValidate rt st text
      = orElse (regexRule rt st text)
          (orElse (lengthRule st text) (orElse (beginningRule st text) .valid)) := by
  unfold referenceValidate orElse
  cases regexRule rt st text <;> cases lengthRule st text <;> cases beginningRule st text <;> rfl

theorem validate_lengthScenario (rt : Runtime) (text : JsString) :
    validateScanContent rt lengthScenarioSettings text
      = if text.length < 5 then .invalid (.tooShort 5)
        else if 10 < text.length then .invalid (.tooLong 10) else .valid := by
  simp [validateScanContent, lengthScenarioSettings, getDefaultSettings]

/-- C7. `validateScanContent` equals the reference validator for every host, every
settings and every text; with no rule enabled every text is valid; under the length
rule from 5 to 10 alone, 'abc' is too short, 'abcdefghijk' is too long and 'abcde'
is valid. -/
theorem validateScanContent_eq_reference (rt : Runtime) (st : Settings) (text : JsString) :
    validateScanContent rt st text = referenceValidate rt st text
    ∧ (st.enableRegex = false ∧ st.enableLength = false ∧ st.enablePrefix = false →
        validateScanContent rt st text = .valid)
    ∧ validateScanContent rt lengthScenarioSettings (js "abc") = .invalid (.tooShort 5)
    ∧ validateScanContent rt lengthScenarioSettings (js "abcdefghijk") = .invalid (.tooLong 10)
    ∧ validateScanContent rt lengthScenarioSettings (js "abcde") = .valid := by
  refine ⟨?_, ?_, ?_, ?_, ?_⟩
  · rw [validateScanContent_layers, referenceValidate_layers]
  · rintro ⟨h1, h2, h3⟩
    simp [validateScanContent, h1, h2, h3]
  · rw [validate_lengthScenario]; decide
  · rw [validate_lengthScenario]; decide
  · rw [validate_lengthScenario]; decide

/-- Instance of C7: with every rule off, 'abc' is valid under the default settings. -/
theorem validateScanContent_eq_reference_witness :
    (getDefaultSettings.enableRegex = false ∧ getDefaultSettings.enableLength = false
      ∧ getDefaultSettings.enablePrefix = false)
    ∧ validateScanContent exampleRuntime getDefaultSettings (js "abc") = .valid :=
  ⟨by decide,
    (validateScanContent_eq_reference exampleRuntime getDefaultSettings (js "abc")).2.1
      (by decide)⟩

theorem effects_of_fail (rt : Runtime) (s : Scanner) (r : ScanResult) (c : Clock)
    (h : passesGates rt s r c = false) :
    ∀ e ∈ (handleScanResult rt s r c).2, ∃ message, e = .showScanFeedback false message := by
  intro e he
  rcases handleScanResult_of_fail rt s r c h with e1 | ⟨message, e1⟩
  · rw [e1] at he; simp at he
  · rw [e1] at he
    exact ⟨message, by simpa using he⟩

theorem passesGates_false_of_gate (rt : Runtime) (s : Scanner) (r : ScanResult) (c : Clock)
    (h : suppressed s c = true ∨ s.settings.allowedFormats.contains r.format = false
          ∨ (validateScanContent rt s.settings r.text).isValid = false) :
    passesGates rt s r c = false := by
  unfold passesGates
  rcases h with h | h | h <;> rw [h] <;> simp

/-- Counterexample to C8 as stated: under `duplicateRule = 'ignore'`, the event
('A','QR_CODE') arriving while a record of ('A','QR_CODE') is stored inserts nothing
and increments no count, the record list stays as it is, and `playFeedback` is called
all the same, with the beep and the vibration. -/
theorem playFeedback_on_ignored_duplicate :
    (scanning getDefaultSettings [recordA]).settings.duplicateRule = .ignore
    ∧ (handleScanResult exampleRuntime (scanning getDefaultSettings [recordA]) eventA
        (clockAt 0)).1.scanResults = [recordA]
    ∧ (handleScanResult exampleRuntime (scanning getDefaultSettings [recordA]) eventA
        (clockAt 0)).2
      = [.saveResults, .renderResults, .updateDisplay, .showScanFeedback true .duplicateIgnored,
          .playFeedback, .sound, .vibration 100] := by
  decide

/-- C8, as the code has it. `handleScanResult` calls `playFeedback` exactly when the
event passes the rate-limit, format and content gates. So it is called whenever the
record list changes (a record inserted or a count incremented), it is never called,
and no sound or vibration is produced, for an event that is suppressed or rejected,
and it is also called for a duplicate that `duplicateRule = 'ignore'` leaves out of
the list. -/
theorem playFeedback_iff_gates_passed (rt : Runtime) (s : Scanner) (r : ScanResult)
    (c : Clock) :
    (Effect.playFeedback ∈ (handleScanResult rt s r c).2 ↔ passesGates rt s r c = true)
    ∧ ((handleScanResult rt s r c).1.scanResults ≠ s.scanResults →
        Effect.playFeedback ∈ (handleScanResult rt s r c).2)
    ∧ ((suppressed s c = true ∨ s.settings.allowedFormats.contains r.format = false
          ∨ (validateScanContent rt s.settings r.text).isValid = false) →
        Effect.playFeedback ∉ (handleScanResult rt s r c).2
        ∧ Effect.sound ∉ (handleScanResult rt s r c).2
        ∧ ∀ ms, Effect.vibration ms ∉ (handleScanResult rt s r c).2)
    ∧ (s.settings.duplicateRule = .ignore → passesGates rt s r c = true →
        (∃ item ∈ s.scanResults, sameCode r item = true) →
        Effect.playFeedback ∈ (handleScanResult rt s r c).2
        ∧ (handleScanResult rt s r c).1.scanResults = s.scanResults) := by
  have hpass : passesGates rt s r c = true → Effect.playFeedback ∈ (handleScanResult rt s r c).2 := by
    intro h
    obtain ⟨message, e⟩ := handleScanResult_effects_of_pass rt s r c h
    rw [e]
    simp
  have hiff : Effect.playFeedback ∈ (handleScanResult rt s r c).2 ↔ passesGates rt s r c = true := by
    refine ⟨fun hmem => ?_, hpass⟩
    cases h : passesGates rt s r c with
    | true => rfl
    | false =>
      obtain ⟨_, hm⟩ := effects_of_fail rt s r c h _ hmem
      cases hm
  refine ⟨hiff, ?_, ?_, ?_⟩
  · intro hne
    apply hpass
    cases h : passesGates rt s r c with
    | true => rfl
    | false =>
      exfalso
      apply hne
      rcases handleScanResult_of_fail rt s r c h with e | ⟨_, e⟩ <;> rw [e]
  · intro hg
    have hf := passesGates_false_of_gate rt s r c hg
    refine ⟨fun hm => ?_, fun hm => ?_, fun ms hm => ?_⟩
    · obtain ⟨_, hx⟩ := effects_of_fail rt s r c hf _ hm
      cases hx
    · obtain ⟨_, hx⟩ := effects_of_fail rt s r c hf _ hm
      cases hx
    · obtain ⟨_, hx⟩ := effects_of_fail rt s r c hf _ hm
      cases hx
  · intro hrule hp hdup
    refine ⟨hpass hp, ?_⟩
    rw [handleScanResult_of_pass rt s r c hp]
    unfold accepted
    cases hi : findIndex (sameCode r) s.scanResults with
    | none =>
      obtain ⟨item, hmem, hsame⟩ := hdup
      rw [(findIndex_eq_none _ _).1 hi item hmem] at hsame
      cases hsame
    | some i => simp [hrule]

/-- Instance of C8: an event of a format that is not allowed gets no feedback. -/
theorem playFeedback_iff_gates_passed_witness :
    scenarioSettings.allowedFormats.contains (js "CODE_128") = false
    ∧ Effect.playFeedback ∉ (handleScanResult exampleRuntime (scanning scenarioSettings [])
        ⟨js "B", js "CODE_128"⟩ (clockAt 0)).2 :=
  ⟨by decide,
    ((playFeedback_iff_gates_passed exampleRuntime (scanning scenarioSettings [])
      ⟨js "B", js "CODE_128"⟩ (clockAt 0)).2.2.1 (Or.inr (Or.inl (by decide)))).1⟩

theorem includes_iff (s t : JsString) : includes s t = true ↔ t <:+: s := by
  induction s with
  | nil => cases t <;> simp [includes]
  | cons c s ih =>
    rw [includes, Bool.or_eq_true, ih, List.isPrefixOf_iff_prefix, List.infix_cons_iff]

theorem trim_nil : trim [] = [] := rfl

/-- C9. `deleteResult(id)` keeps exactly the records whose id differs from `id`, in
their original order and as often as they were stored; when no stored record has
that id, the record list is unchanged. -/
theorem deleteResult_removes_by_id (s : Scanner) (id : Rat) :
    ((∀ item ∈ s.scanResults, item.id ≠ id) →
        (deleteResult s id).1.scanResults = s.scanResults
        ∧ (deleteResult s id).1.scanResults.length = s.scanResults.length)
    ∧ List.Sublist (deleteResult s id).1.scanResults s.scanResults
    ∧ (∀ item, item ∈ (deleteResult s id).1.scanResults ↔ item ∈ s.scanResults ∧ item.id ≠ id)
    ∧ (∀ item, item.id ≠ id →
        (deleteResult s id).1.scanResults.count item = s.scanResults.count item) := by
  refine ⟨?_, ?_, ?_, ?_⟩
  · intro h
    have : (deleteResult s id).1.scanResults = s.scanResults := by
      simp only [deleteResult]
      exact List.filter_eq_self.2 (fun item hi => by simpa using h item hi)
    exact ⟨this, by rw [this]⟩
  · simp only [deleteResult]
    exact List.filter_sublist _
  · intro item
    simp [deleteResult]
  · intro item hne
    simp only [deleteResult]
    exact List.count_filter (by simpa using hne)

/-- Instance of C9: deleting an id that no record has leaves both records. -/
theorem deleteResult_removes_by_id_witness :
    (∀ item ∈ (scanning getDefaultSettings [recordA, recordAb]).scanResults, item.id ≠ 7)
    ∧ (deleteResult (scanning getDefaultSettings [recordA, recordAb]) 7).1.scanResults
        = [recordA, recordAb] :=
  ⟨by decide,
    ((deleteResult_removes_by_id (scanning getDefaultSettings [recordA, recordAb]) 7).1
      (by decide)).1⟩

theorem dropWhile_of_head (p : Nat → Bool) (l : List Nat)
    (h : ∀ c, l.head? = some c → p c = false) : l.dropWhile p = l := by
  cases l with
  | nil => rfl
  | cons c l => simp [List.dropWhile, h c rfl]

theorem trim_of_clean_ends (s : JsString)
    (hfirst : ∀ c, s.head? = some c → isTrimmed c = false)
    (hlast : ∀ c, s.getLast? = some c → isTrimmed c = false) : trim s = s := by
  unfold trim
  rw [dropWhile_of_head _ s hfirst, dropWhile_of_head _ s.reverse, List.reverse_reverse]
  intro c hc
  rw [List.head?_reverse] at hc
  exact hlast c hc

/-- Counterexample to C10 as stated: with the search input ' a' (a space, then 'a') the
record with the text 'ab' is returned, though 'ab' does not contain ' a' in any letter
case; and with a search input of two spaces every record is returned, though no text
contains two spaces. -/
theorem search_input_is_trimmed :
    (getFilteredResults exampleRuntime (scanning getDefaultSettings [recordA, recordAb]) []
        (js " a")).2 = [recordA, recordAb]
    ∧ includes (asciiLower (js "ab")) (asciiLower (js " a")) = false
    ∧ includes (asciiLower (js "A")) (asciiLower (js " a")) = false
    ∧ (getFilteredResults exampleRuntime (scanning getDefaultSettings [recordA, recordAb]) []
        (js "  ")).2 = [recordA, recordAb]
    ∧ includes (asciiLower (js "ab")) (asciiLower (js "  ")) = false := by
  decide

/-- C10, as the code has it. `getFilteredResults` does not change the scanner and
returns, in store order, exactly the stored records whose format equals the type
filter (when that is non-empty) and whose lower-cased text contains the lower-cased
search term (when that is non-empty), where the search term is the search input with
the white space at both ends removed. With an empty type filter and a search input
that is empty or all white space, the result is the whole list. A search input that
neither begins nor ends with white space is its own search term. -/
theorem getFilteredResults_filters (rt : Runtime) (s : Scanner)
    (typeFilter searchInput : JsString) :
    (getFilteredResults rt s typeFilter searchInput).1 = s
    ∧ (getFilteredResults rt s typeFilter searchInput).2
        = s.scanResults.filter (fun item =>
            decide ((typeFilter = [] ∨ item.format = typeFilter)
              ∧ (trim searchInput = [] ∨
                  rt.toLowerCase (trim searchInput) <:+: rt.toLowerCase item.text)))
    ∧ (typeFilter = [] → trim searchInput = [] →
        (getFilteredResults rt s typeFilter searchInput).2 = s.scanResults)
    ∧ (getFilteredResults rt s [] []).2 = s.scanResults
    ∧ ((∀ c, searchInput.head? = some c → isTrimmed c = false) →
        (∀ c, searchInput.getLast? = some c → isTrimmed c = false) →
        (getFilteredResults rt s typeFilter searchInput).2
          = s.scanResults.filter (fun item =>
              decide ((typeFilter = [] ∨ item.format = typeFilter)
                ∧ (searchInput = [] ∨
                    rt.toLowerCase searchInput <:+: rt.toLowerCase item.text)))) := by
  have hmain : (getFilteredResults rt s typeFilter searchInput).2
        = s.scanResults.filter (fun item =>
            decide ((typeFilter = [] ∨ item.format = typeFilter)
              ∧ (trim searchInput = [] ∨
                  rt.toLowerCase (trim searchInput) <:+: rt.toLowerCase item.text))) := by
    unfold getFilteredResults
    by_cases h1 : typeFilter = [] <;> by_cases h2 : trim searchInput = []
    · simp [h1, h2, truthy]
    · have h1' : truthy typeFilter = false := by simp [h1, truthy]
      have h2' : truthy (trim searchInput) = true := (truthy_iff _).2 h2
      simp only [h1, h2, h1', h2', Bool.false_eq_true, if_false, if_true, true_or, false_or,
        true_and]
      refine List.filter_congr (fun item _ => ?_)
      rw [Bool.eq_iff_iff, includes_iff, decide_eq_true_iff]
    · have h1' : truthy typeFilter = true := (truthy_iff _).2 h1
      simp [h1, h2, h1', truthy]
    · have h1' : truthy typeFilter = true := (truthy_iff _).2 h1
      have h2' : truthy (trim searchInput) = true := (truthy_iff _).2 h2
      simp only [h1, h2, h1', h2', if_true, false_or, List.filter_filter]
      refine List.filter_congr (fun item _ => ?_)
      rw [Bool.eq_iff_iff]
      simp [includes_iff, and_comm]
  refine ⟨rfl, hmain, ?_, ?_, ?_⟩
  · intro h1 h2
    rw [hmain]
    simp [h1, h2]
  · simp [getFilteredResults, truthy, trim_nil]
  · intro hfirst hlast
    rw [hmain, trim_of_clean_ends searchInput hfirst hlast]

/-- Instance of C10: no type filter and a search input of white space return all. -/
theorem getFilteredResults_filters_witness :
    trim (js "  ") = []
    ∧ (getFilteredResults exampleRuntime (scanning getDefaultSettings [recordA, recordAb]) []
        (js "  ")).2 = [recordA, recordAb] :=
  ⟨by decide,
    (getFilteredResults_filters exampleRuntime (scanning getDefaultSettings [recordA, recordAb])
      [] (js "  ")).2.2.1 rfl (by decide)⟩

/-- C11, on the code. When `getUserMedia` is rejected, `startScanning` ends with the
start button enabled and the stop button disabled, but with `isScanning` still true:
the `catch` block calls `resetButtons` and does not clear the flag that the `try`
block has set. `stopScanning`, the other path back to idle, clears it. -/
theorem startScanning_failure_keeps_isScanning (s : Scanner) :
    (startScanning s .permissionDenied).1.isScanning = true
    ∧ (startScanning s .permissionDenied).1.startBtnDisabled = false
    ∧ (startScanning s .permissionDenied).1.stopBtnDisabled = true
    ∧ (startScanning s .deviceUnavailable).1.isScanning = true
    ∧ (startScanning s .deviceUnavailable).1.startBtnDisabled = false
    ∧ (startScanning s .deviceUnavailable).1.stopBtnDisabled = true
    ∧ (startScanning (idle getDefaultSettings []) .permissionDenied).1
        = { idle getDefaultSettings [] with isScanning := true }
    ∧ (∀ srcObject, (stopScanning s srcObject).1.isScanning = false
        ∧ (stopScanning s srcObject).1.startBtnDisabled = false
        ∧ (stopScanning s srcObject).1.stopBtnDisabled = true) :=
  ⟨rfl, rfl, rfl, rfl, rfl, rfl, rfl, fun _ => ⟨rfl, rfl, rfl⟩⟩

theorem findIndex_some_split {α : Type} (p : α → Bool) (l : List α) (i : Nat)
    (h : findIndex p l = some i) :
    ∃ pre item post, l = pre ++ item :: post ∧ pre.length = i
      ∧ (∀ x ∈ pre, p x = false) ∧ p item = true := by
  induction l generalizing i with
  | nil => simp [findIndex] at h
  | cons x xs ih =>
    by_cases hx : p x = true
    · simp only [findIndex, hx, if_true, Option.some.injEq] at h
      exact ⟨[], x, xs, rfl, by simpa using h, by simp, hx⟩
    · simp only [findIndex, hx, Bool.false_eq_true, if_false, Option.map_eq_some'] at h
      obtain ⟨j, hj, rfl⟩ := h
      obtain ⟨pre, item, post, hl, hlen, hpre, hitem⟩ := ih j hj
      refine ⟨x :: pre, item, post, by rw [hl]; rfl, by simp [hlen], ?_, hitem⟩
      intro y hy
      rcases List.mem_cons.1 hy with rfl | hy
      · simpa using hx
      · exact hpre y hy

theorem updateAt_append {α : Type} (f : α → α) (pre : List α) (item : α) (post : List α) :
    updateAt f pre.length (pre ++ item :: post) = pre ++ f item :: post := by
  induction pre with
  | nil => rfl
  | cons x pre ih => simp [updateAt, ih]

/-- C12. Under `duplicateRule = 'count'`, an event that passes the gates while some
stored record has its (text, format) changes the first such record in store order
and nothing else: its count goes up by 1 and its date becomes the date of the scan,
its id, text, format and timestamp stay, the records before and after it stay, and
so do the length and the order of the list. -/
theorem count_merge_touches_first_match (rt : Runtime) (s : Scanner) (r : ScanResult)
    (c : Clock)
    (hrule : s.settings.duplicateRule = .count)
    (hmatch : ∃ item ∈ s.scanResults, sameCode r item = true)
    (hpass : passesGates rt s r c = true) :
    ∃ pre item post, s.scanResults = pre ++ item :: post
      ∧ (∀ x ∈ pre, sameCode r x = false) ∧ sameCode r item = true
      ∧ (handleScanResult rt s r c).1.scanResults
          = pre ++ { id := item.id, text := item.text, format := item.format,
                     timestamp := item.timestamp, date := c.date,
                     count := item.count + 1 } :: post
      ∧ (handleScanResult rt s r c).1.scanResults.length = s.scanResults.length := by
  cases hi : findIndex (sameCode r) s.scanResults with
  | none =>
    obtain ⟨item, hmem, hsame⟩ := hmatch
    rw [(findIndex_eq_none _ _).1 hi item hmem] at hsame
    cases hsame
  | some i =>
    obtain ⟨pre, item, post, hl, hlen, hpre, hitem⟩ := findIndex_some_split _ _ _ hi
    have hres : (handleScanResult rt s r c).1.scanResults
        = pre ++ countAgain c.date item :: post := by
      rw [handleScanResult_of_pass rt s r c hpass]
      unfold accepted
      simp only [hrule, hi]
      rw [hl, ← hlen, updateAt_append]
    refine ⟨pre, item, post, hl, hpre, hitem, hres, ?_⟩
    rw [hres, hl]
    simp

/-- Instance of C12: with 'ab' stored in front of 'A', a scan of ('A','QR_CODE') under
the rule `count` changes the second record only. -/
theorem count_merge_touches_first_match_witness :
    passesGates exampleRuntime (scanning scenarioSettings [recordAb, recordA]) eventA
        (clockAt 0) = true
    ∧ ∃ pre item post,
        (scanning scenarioSettings [recordAb, recordA]).scanResults = pre ++ item :: post
        ∧ (handleScanResult exampleRuntime (scanning scenarioSettings [recordAb, recordA]) eventA
            (clockAt 0)).1.scanResults
          = pre ++ { id := item.id, text := item.text, format := item.format,
                     timestamp := item.timestamp, date := (clockAt 0).date,
                     count := item.count + 1 } :: post := by
  refine ⟨by decide, ?_⟩
  obtain ⟨pre, item, post, h1, _, _, h4, _⟩ :=
    count_merge_touches_first_match exampleRuntime (scanning scenarioSettings [recordAb, recordA])
      eventA (clockAt 0) (by decide) ⟨recordA, by decide, by decide⟩ (by decide)
  exact ⟨pre, item, post, h1, h4⟩

/-- Counterexample to C13 as stated: with interval 1000 and only 'QR_CODE' allowed, the
event ('B','CODE_128') is rejected for its format and stores nothing, and the event
('A','QR_CODE') 500 ms later is suppressed, although no event has passed the three
gates since time 0 and the same event would be accepted had 'B' not come. -/
theorem rejected_event_starts_cooldown :
    handleScanResult exampleRuntime (scanning throttledSettings []) eventB (clockAt 0)
      = ({ scanning throttledSettings [] with lastScanTime := (clockAt 0).now },
          [.showScanFeedback false .unsupportedFormat])
    ∧ handleScanResult exampleRuntime
        (handleScanResult exampleRuntime (scanning throttledSettings []) eventB (clockAt 0)).1
        eventA clockHalf
      = ((handleScanResult exampleRuntime (scanning throttledSettings []) eventB (clockAt 0)).1, [])
    ∧ ¬ (clockHalf.now - (scanning throttledSettings []).lastScanTime
          < throttledSettings.scanInterval)
    ∧ passesGates exampleRuntime (scanning throttledSettings []) eventA clockHalf = true := by
  decide

theorem handleScanResult_of_rejected (rt : Runtime) (s : Scanner) (r : ScanResult) (c : Clock)
    (hs : suppressed s c = false) (h : passesGates rt s r c = false) :
    ∃ message, handleScanResult rt s r c
      = ({ s with lastScanTime := c.now }, [.showScanFeedback false message]) := by
  unfold handleScanResult
  by_cases h2 : s.settings.allowedFormats.contains r.format = true
  · cases hv : validateScanContent rt s.settings r.text with
    | valid =>
      rw [(passesGates_iff rt s r c).2 ⟨hs, h2, hv⟩] at h
      cases h
    | invalid message =>
      refine ⟨message, ?_⟩
      simp only [hs, h2, hv, Bool.false_eq_true, if_false, Bool.not_true]
  · refine ⟨.unsupportedFormat, ?_⟩
    simp only [Bool.not_eq_true] at h2
    simp only [hs, h2, Bool.false_eq_true, if_false, Bool.not_false, if_true]

/-- C13, as the code has it. `handleScanResult` drops an event silently exactly when
now - lastScanTime < scanInterval, and lastScanTime is the time of the most recent
event that was not suppressed: every such event sets it, whether it then passes the
format and content gates or is rejected by one of them. So after an event that is not
suppressed, accepted or rejected, a later event is suppressed exactly when it comes
less than scanInterval after it. -/
theorem cooldown_from_last_unsuppressed (rt : Runtime) (s : Scanner) (r : ScanResult)
    (c : Clock) :
    (suppressed s c = true ↔ c.now - s.lastScanTime < s.settings.scanInterval)
    ∧ (handleScanResult rt s r c = (s, []) ↔ suppressed s c = true)
    ∧ ((handleScanResult rt s r c).1.lastScanTime
        = if suppressed s c = true then s.lastScanTime else c.now)
    ∧ (suppressed s c = false →
        (s.settings.allowedFormats.contains r.format = false
          ∨ (validateScanContent rt s.settings r.text).isValid = false) →
        (handleScanResult rt s r c).1.lastScanTime = c.now)
    ∧ (∀ c2 : Clock, suppressed s c = false →
        (suppressed (handleScanResult rt s r c).1 c2 = true
          ↔ c2.now - c.now < s.settings.scanInterval)) := by
  have hdef : suppressed s c = true ↔ c.now - s.lastScanTime < s.settings.scanInterval := by
    simp [suppressed]
  have htime : (handleScanResult rt s r c).1.lastScanTime
      = if suppressed s c = true then s.lastScanTime else c.now := by
    by_cases hs : suppressed s c = true
    · rw [handleScanResult_of_suppressed rt s r c hs, if_pos hs]
    · rw [if_neg hs]
      simp only [Bool.not_eq_true] at hs
      cases hp : passesGates rt s r c with
      | true => rw [handleScanResult_of_pass rt s r c hp, accepted_lastScanTime]
      | false =>
        obtain ⟨_, e⟩ := handleScanResult_of_rejected rt s r c hs hp
        rw [e]
  have hsilent : handleScanResult rt s r c = (s, []) ↔ suppressed s c = true := by
    refine ⟨fun h => ?_, handleScanResult_of_suppressed rt s r c⟩
    cases hs : suppressed s c with
    | true => rfl
    | false =>
      exfalso
      cases hp : passesGates rt s r c with
      | true =>
        obtain ⟨_, e⟩ := handleScanResult_effects_of_pass rt s r c hp
        rw [h] at e
        simp at e
      | false =>
        obtain ⟨_, e⟩ := handleScanResult_of_rejected rt s r c hs hp
        rw [h] at e
        simp at e
  refine ⟨hdef, hsilent, htime, ?_, ?_⟩
  · intro hs _
    rw [htime, hs]
    simp
  · intro c2 hs
    have hl : (handleScanResult rt s r c).1.lastScanTime = c.now := by
      rw [htime, hs]
      simp
    simp [suppressed, handleScanResult_settings, hl]

/-- Instance of C13: after ('B','CODE_128'), rejected for its format at some time, an
event 500 ms later is suppressed under the interval 1000. -/
theorem cooldown_from_last_unsuppressed_witness :
    suppressed (scanning throttledSettings []) (clockAt 0) = false
    ∧ throttledSettings.allowedFormats.contains eventB.format = false
    ∧ (handleScanResult exampleRuntime (scanning throttledSettings []) eventB
        (clockAt 0)).1.lastScanTime = (clockAt 0).now
    ∧ suppressed
        (handleScanResult exampleRuntime (scanning throttledSettings []) eventB (clockAt 0)).1
        clockHalf = true :=
  ⟨by decide, by decide,
    (cooldown_from_last_unsuppressed exampleRuntime (scanning throttledSettings []) eventB
      (clockAt 0)).2.2.2.1 (by decide) (Or.inl (by decide)),
    ((cooldown_from_last_unsuppressed exampleRuntime (scanning throttledSettings []) eventB
      (clockAt 0)).2.2.2.2 clockHalf (by decide)).2 (by decide)⟩

end BarcodeScanner
